import Mathlib

/-!
A verification development for the generic-erasure (monomorphization) core of
the fo compiler: the per-package generic registry and the structural
substitution engine of `src/types/generics.go`, the usage-discovery entry
point `Checker.concreteType` / `Checker.createTypeMap`, and the syntactic
transformer of the `transform` package (`Transformer.File` with its two
passes `generateConcreteTypes` and `replaceGenericIdents`).

Go maps are modelled as association lists with insert-or-replace semantics
(lookups agree with Go map lookups; iteration order of the model is the list
order, a deterministic stand-in for Go's unspecified map order — no claim
below depends on a particular iteration order).  Go panics are modelled as
`Except`/`Option` error results.
-/

namespace Fo

/-- Model of the fo type universe (`src/types/type.go`), restricted to the
data the generic subsystem of `src/types/generics.go` consumes.  Methods are
(name, signature) pairs; `types.Object`, source positions, scopes and the
memoized interface completion are elided.  Following the `Signature` and
`Named` shapes used by `src/types/generics.go`, a signature carries its own
type-parameter lists and a named type carries its type parameters; a
`concreteNamed` carries the parameter list of its generic origin together
with the parameter→type map used to produce it. -/
inductive Ty where
  | basic (name : String)
  | tparam (name : String)
  | ptr (base : Ty)
  | slice (elem : Ty)
  | tmap (key : Ty) (elem : Ty)
  | array (len : Nat) (elem : Ty)
  | chan (dir : Nat) (elem : Ty)
  | strct (fields : List (String × Ty)) (tags : List String)
  | sig (recv : Option (String × Ty)) (params : List (String × Ty))
        (results : List (String × Ty)) (variadic : Bool)
        (typeParams : List String) (recvTypeParams : List String)
  | named (name : String) (underlying : Ty) (methods : List (String × Ty))
          (typeParams : List String)
  | concreteNamed (name : String) (underlying : Ty) (methods : List (String × Ty))
                  (typeParams : List String) (typeMap : List (String × Ty))
  | iface (methods : List (String × Ty)) (embeddeds : List Ty)

/-- A parameter→type map (`map[string]Type` in the Go source), as an
association list. -/
def TypeMap := List (String × Ty)

/-- The Go type switch `typ.(*TypeParam)`. -/
def isTParam : Ty → Bool
  | .tparam _ => true
  | _ => false

/-- Go map lookup `typeMap[k]` returning presence. -/
def tmLookup : TypeMap → String → Option Ty
  | [], _ => none
  | (k, v) :: rest, key => if k = key then some v else tmLookup rest key

/-- Go map lookup where the caller dereferences the result without checking
presence; a missing key yields the nil sentinel. -/
def tmLookupD (tm : TypeMap) (k : String) : Ty :=
  (tmLookup tm k).getD (.basic "<nil>")

/-- Go map assignment `m[k] = v`: replace the binding if present, else append. -/
def tmInsert : TypeMap → String → Ty → TypeMap
  | [], key, v => [(key, v)]
  | (k, w) :: rest, key, v =>
      if k = key then (key, v) :: rest else (k, w) :: tmInsert rest key v

/-- The scan at the top of `addGenericUsage`: does some value of the map
have dynamic type `*TypeParam`? -/
def tmHasTParamValue (tm : TypeMap) : Bool :=
  tm.any fun e => isTParam e.2

/-- `decl.Type.TypeParams()`: the type-parameter list carried by the type
itself (`GenericNamed.TypeParams` / `GenericSignature.TypeParams` in
`src/types/type.go`; a generic method's signature carries only the method's
own parameters, the receiver's being in `recvTypeParams`). -/
def tyTypeParamsOf : Ty → List String
  | .named _ _ _ tps => tps
  | .sig _ _ _ _ tps _ => tps
  | _ => []

mutual

/-- Model of the `String()` projection (`types.TypeString`): a deterministic
string form, stable across runs, used by `usageKey` and by the mangler
input.  The exact rendering of `TypeString` is not in `src/`; this renderer
is deterministic and structural, which is all the claims rely on. -/
def tyString : Ty → String
  | .basic n => n
  | .tparam p => p
  | .ptr b => "*" ++ tyString b
  | .slice e => "[]" ++ tyString e
  | .tmap k e => "map[" ++ tyString k ++ "]" ++ tyString e
  | .array n e => "[" ++ toString n ++ "]" ++ tyString e
  | .chan _ e => "chan " ++ tyString e
  | .strct fs _ => "struct\x7b" ++ tyFieldsString fs ++ "\x7d"
  | .sig _ ps rs _ _ _ =>
      "func(" ++ tyFieldsString ps ++ ")(" ++ tyFieldsString rs ++ ")"
  | .named n _ _ _ => n
  | .concreteNamed n _ _ _ _ => n
  | .iface ms es => "interface\x7b" ++ tyFieldsString ms ++ tyListString es ++ "\x7d"

def tyFieldsString : List (String × Ty) → String
  | [] => ""
  | (n, t) :: rest => n ++ " " ++ tyString t ++ ";" ++ tyFieldsString rest

def tyListString : List Ty → String
  | [] => ""
  | t :: rest => tyString t ++ ";" ++ tyListString rest

end

/-- Modelled from the spec (§4.F step 2; the implementation `safeString` in
the transform package is not under `src/`): map every character outside
`[A-Za-z0-9_]` to `_`. -/
def safeString (s : String) : String :=
  ⟨s.data.map fun c => if c.isAlphanum || c == '_' then c else '_'⟩

/-- Modelled from the spec (§4.F step 1; `typeToSafeString` is not under
`src/`): the safe form of a type's string projection. -/
def typeToSafeString (t : Ty) : String :=
  safeString (tyString t)

/-! ## The generic registry (`src/types/generics.go`) -/

/-- `types.GenericUsage`: one recorded concrete usage. -/
structure GenericUsage where
  typeMap : TypeMap
  typ : Ty

/-- `types.GenericDecl`: one registered generic declaration.  `usages` is
the `map[string]*GenericUsage` keyed by `usageKey`. -/
structure GenericDeclR where
  name : String
  typ : Ty
  typeParams : List String
  usages : List (String × GenericUsage)

/-- `pkg.generics`: the per-package `map[string]*GenericDecl` (a nil map and
an empty map behave identically). -/
def Registry := List (String × GenericDeclR)

def regLookup : Registry → String → Option GenericDeclR
  | [], _ => none
  | (k, d) :: rest, key => if k = key then some d else regLookup rest key

def regInsert : Registry → String → GenericDeclR → Registry
  | [], key, d => [(key, d)]
  | (k, e) :: rest, key, d =>
      if k = key then (key, d) :: rest else (k, e) :: regInsert rest key d

def usgInsert : List (String × GenericUsage) → String → GenericUsage →
    List (String × GenericUsage)
  | [], key, u => [(key, u)]
  | (k, e) :: rest, key, u =>
      if k = key then (key, u) :: rest else (k, e) :: usgInsert rest key u

/-- The per-parameter loop of `usageKey`: the string form of `typeMap[p]`
for each parameter, in order; `none` models the nil-interface panic when a
parameter is missing from the map. -/
def tyStringsFor (typeMap : TypeMap) : List String → Option (List String)
  | [] => some []
  | p :: rest =>
      match tmLookup typeMap p, tyStringsFor typeMap rest with
      | some t, some tail => some (tyString t :: tail)
      | _, _ => none

/-- `usageKey` (src/types/generics.go lines 84–90): concatenate, in the
declaration's type-parameter order, the string form of `typeMap[p]`, joined
by `","`.  In Go a parameter missing from the map makes
`typeMap[param.String()].String()` dereference a nil interface and panic;
the panic is modelled as `none`. -/
def usageKey (typeMap : TypeMap) (typeParams : List String) : Option String :=
  (tyStringsFor typeMap typeParams).map (String.intercalate ",")

/-- `addGenericDecl` (src/types/generics.go lines 40–51): (re-)insert a
fresh generic record with no usages under the object's name. -/
def addGenericDecl (reg : Registry) (name : String) (typ : Ty)
    (typeParams : List String) : Registry :=
  regInsert reg name ⟨name, typ, typeParams, []⟩

/-- The two panics reachable from `addGenericUsage`: the explicit
`declaration not found for generic object` panic, and the nil-interface
dereference inside `usageKey` when a type parameter is missing from the
map. -/
inductive AddErr where
  | declNotFound
  | nilTypeString

/-- `addGenericUsage` (src/types/generics.go lines 53–79): if some value of
the map is itself a type parameter the registry is left unchanged;
otherwise the declaration is looked up by the object's name (panicking when
absent) and the usage is inserted under its usage key, silently replacing a
previous usage with the same key. -/
def addGenericUsage (reg : Registry) (name : String) (typ : Ty)
    (typeMap : TypeMap) : Except AddErr Registry :=
  if tmHasTParamValue typeMap then
    .ok reg
  else
    match regLookup reg name with
    | none => .error .declNotFound
    | some genDecl =>
        match usageKey typeMap genDecl.typeParams with
        | none => .error .nilTypeString
        | some key =>
            .ok (regInsert reg name
              { genDecl with usages := usgInsert genDecl.usages key ⟨typeMap, typ⟩ })

/-- Every usage recorded anywhere in the registry has a map whose values are
all non-parameter types. -/
def regNoPartial (reg : Registry) : Bool :=
  reg.all fun e => e.2.usages.all fun u => !tmHasTParamValue u.2.typeMap

/-! ## The substitution engine (`src/types/generics.go` lines 150–334) -/

/-- `createMethodTypeMap` (src/types/generics.go lines 150–170): when the
receiver is a concrete named type with type parameters, rebind every
receiver parameter whose recorded value is still a type parameter to the
corresponding outer argument (`typeMap[name]`; Go stores the zero value when
the outer map misses the key, modelled by the nil sentinel). -/
def createMethodTypeMap (recvType : Ty) (typeMap : TypeMap) : TypeMap :=
  match recvType with
  | .concreteNamed _ _ _ tps tm =>
      if tps.isEmpty then typeMap
      else
        tm.foldl
          (fun acc e =>
            match e.2 with
            | .tparam p => tmInsert acc p (tmLookupD typeMap e.1)
            | _ => acc)
          typeMap
  | _ => typeMap

/-- The map-rewrite loop at the head of `replaceTypesInConcreteNamed`
(src/types/generics.go lines 313–324): entries whose value is a type
parameter bound to a non-parameter type by the outer map are rebound;
every other entry is kept. -/
def rewriteTypeMap (inner : TypeMap) (outer : TypeMap) : TypeMap :=
  inner.map fun e =>
    match e.2 with
    | .tparam p =>
        match tmLookup outer p with
        | some inherited => if isTParam inherited then e else (e.1, inherited)
        | none => e
    | _ => e

mutual

/-- `replaceTypes` (src/types/generics.go lines 179–225): structural
substitution of type parameters.  A type-parameter leaf bound by the map to
a non-parameter type is replaced; one bound to another type parameter, or
unbound, is kept.  Pointer, slice, map, array and chan nodes are copied
with the element (and key) recursed; structs, signatures, named types and
concrete named types recurse through the dedicated helpers; every other
variant (`*Basic`, `*Interface`, …) falls through the switch and is
returned unchanged.  The `addGenericUsage` side effect performed by
`replaceTypesInConcreteNamed` mutates the registry, not the returned type;
it is modelled by the registry operation `addGenericUsage` above. -/
def replaceTypes (root : Ty) (typeMap : TypeMap) : Ty :=
  match root with
  | .tparam p =>
      match tmLookup typeMap p with
      | some newType => if isTParam newType then .tparam p else newType
      | none => .tparam p
  | .ptr b => .ptr (replaceTypes b typeMap)
  | .slice e => .slice (replaceTypes e typeMap)
  | .tmap k e => .tmap (replaceTypes k typeMap) (replaceTypes e typeMap)
  | .array n e => .array n (replaceTypes e typeMap)
  | .chan d e => .chan d (replaceTypes e typeMap)
  | .strct fs tags => .strct (replaceTypesFields fs typeMap) tags
  | .sig r ps rs v tps rtps =>
      .sig
        (match r with
         | none => none
         | some (n, t) => some (n, replaceTypes t typeMap))
        (replaceTypesFields ps typeMap) (replaceTypesFields rs typeMap) v tps rtps
  | .named n u ms tps => .named n (replaceTypes u typeMap) ms tps
  | .concreteNamed n u ms tps tm =>
      let newTypeMap := rewriteTypeMap tm typeMap
      .concreteNamed n (replaceTypes u newTypeMap)
        (replaceTypesInMethods ms newTypeMap) tps newTypeMap
  | t => t
termination_by structural root

/-- `replaceTypesInStruct`-style field copy: each field copied with its type
recursed (tags are preserved by the caller). -/
def replaceTypesFields : List (String × Ty) → TypeMap → List (String × Ty)
  | [], _ => []
  | (n, t) :: rest, typeMap =>
      (n, replaceTypes t typeMap) :: replaceTypesFields rest typeMap
termination_by structural fs _ => fs

/-- `replaceTypesInMethods` (src/types/generics.go lines 276–298): each
method's signature is substituted under the map merged through
`createMethodTypeMap` from the method's receiver type (the `.sig` case of
`replaceTypes` is `replaceTypesInSignature`: receiver, parameters and
results copied with types recursed, variadic flag and type-parameter lists
passed through).  (Go panics on a non-signature method type or a nil
receiver; both are unreachable for well-formed methods and the entry is
kept unchanged here.) -/
def replaceTypesInMethods : List (String × Ty) → TypeMap → List (String × Ty)
  | [], _ => []
  | (mname, mty) :: rest, typeMap =>
      (match mty with
       | .sig (some (_, recvTy)) _ _ _ _ _ =>
           (mname, replaceTypes mty (createMethodTypeMap recvTy typeMap))
       | t => (mname, t))
      :: replaceTypesInMethods rest typeMap
termination_by structural ms _ => ms

end

/-- `replaceTypesInSignature` (src/types/generics.go lines 237–274), the
`.sig` case of `replaceTypes` as a named entry point. -/
def replaceTypesInSignature (r : Option (String × Ty))
    (ps rs : List (String × Ty)) (v : Bool) (tps rtps : List String)
    (typeMap : TypeMap) : Ty :=
  replaceTypes (.sig r ps rs v tps rtps) typeMap

/-! ## Usage discovery (`Checker.createTypeMap` / `Checker.concreteType`) -/

/-- `Checker.createTypeMap` (src/types/generics.go lines 134–148): on an
arity mismatch, report `wrong number of type parameters (expected N but got
M)` and return a nil map; otherwise bind the checked argument types
positionally to the declared parameters.  The result is the map (`none`
models Go's nil map, whose lookups all miss) paired with the diagnostics
emitted, accumulated per the spec's error model (`check.rawExpr` is
external; its results are the given argument types). -/
def createTypeMap (args : List Ty) (genericParams : List String) :
    Option TypeMap × List String :=
  if args.length ≠ genericParams.length then
    (none,
     ["wrong number of type parameters (expected " ++
        toString genericParams.length ++ " but got " ++
        toString args.length ++ ")"])
  else
    (some (genericParams.zip args), [])

/-- The `*Named` arm of `Checker.concreteType` (src/types/generics.go lines
97–131): build the parameter map, substitute the generic's underlying type
and methods, wrap the result as a concrete named type and register the
usage via `addGenericUsage` (whose panics propagate).  Note that the code
does not inspect the map returned by `createTypeMap`: after an arity error
it simply continues with the nil map. -/
def concreteTypeNamed (reg : Registry) (gname : String)
    (gTypeParams : List String) (gUnderlying : Ty)
    (gMethods : List (String × Ty)) (args : List Ty) :
    List String × Except AddErr (Registry × Ty) :=
  let created := createTypeMap args gTypeParams
  let typeMap := created.1.getD []
  let newType : Ty :=
    .concreteNamed gname (replaceTypes gUnderlying typeMap)
      (replaceTypesInMethods gMethods typeMap) gTypeParams typeMap
  match addGenericUsage reg gname newType typeMap with
  | .error e => (created.2, .error e)
  | .ok reg2 => (created.2, .ok (reg2, newType))

/-! ## The substitution engine as the spec words it (claim C3) -/

mutual

/-- Follows the spec's words for the substitution engine (§4.D and claim
C3), as a refinement counterpart to `replaceTypes`: the returned type has
identical shape except that every type-parameter leaf bound by the map to a
non-parameter type is replaced; parameters absent from the map or mapped to
another parameter are left intact; pointer, slice, array, channel, map,
struct and signature nodes are copied with their element, key, field,
parameter and result types recursed; nodes outside this enumeration are
not touched. -/
def replaceTypesSpecC3 : Ty → TypeMap → Ty
  | .tparam p, typeMap =>
      match tmLookup typeMap p with
      | some newType => if isTParam newType then .tparam p else newType
      | none => .tparam p
  | .ptr b, typeMap => .ptr (replaceTypesSpecC3 b typeMap)
  | .slice e, typeMap => .slice (replaceTypesSpecC3 e typeMap)
  | .tmap k e, typeMap =>
      .tmap (replaceTypesSpecC3 k typeMap) (replaceTypesSpecC3 e typeMap)
  | .array n e, typeMap => .array n (replaceTypesSpecC3 e typeMap)
  | .chan d e, typeMap => .chan d (replaceTypesSpecC3 e typeMap)
  | .strct fs tags, typeMap => .strct (replaceTypesSpecC3Fields fs typeMap) tags
  | .sig r ps rs v tps rtps, typeMap =>
      .sig
        (match r with
         | none => none
         | some (n, t) => some (n, replaceTypesSpecC3 t typeMap))
        (replaceTypesSpecC3Fields ps typeMap)
        (replaceTypesSpecC3Fields rs typeMap) v tps rtps
  | t, _ => t
termination_by structural root _ => root

def replaceTypesSpecC3Fields : List (String × Ty) → TypeMap → List (String × Ty)
  | [], _ => []
  | (n, t) :: rest, typeMap =>
      (n, replaceTypesSpecC3 t typeMap) :: replaceTypesSpecC3Fields rest typeMap
termination_by structural fs _ => fs

end

/-- The fragment of the type universe enumerated by claim C3: types built
from type-parameter and basic leaves by the pointer, slice, array, channel,
map, struct and signature constructors. -/
inductive C3Frag : Ty → Prop where
  | basic (n : String) : C3Frag (.basic n)
  | tparam (p : String) : C3Frag (.tparam p)
  | ptr {b : Ty} : C3Frag b → C3Frag (.ptr b)
  | slice {e : Ty} : C3Frag e → C3Frag (.slice e)
  | tmap {k e : Ty} : C3Frag k → C3Frag e → C3Frag (.tmap k e)
  | array (n : Nat) {e : Ty} : C3Frag e → C3Frag (.array n e)
  | chan (d : Nat) {e : Ty} : C3Frag e → C3Frag (.chan d e)
  | strct {fs : List (String × Ty)} (tags : List String)
      (hfs : ∀ f ∈ fs, C3Frag f.2) : C3Frag (.strct fs tags)
  | sig {r : Option (String × Ty)} {ps rs : List (String × Ty)}
      (v : Bool) (tps rtps : List String)
      (hr : ∀ f ∈ r, C3Frag f.2)
      (hps : ∀ f ∈ ps, C3Frag f.2)
      (hrs : ∀ f ∈ rs, C3Frag f.2) : C3Frag (.sig r ps rs v tps rtps)


/-! ## The syntax-tree model (the fo `ast` package, as used by `transform`) -/

/-- The expression/type-expression language of the tree the transformer
walks: identifiers, selectors, `IndexExpr`, `TypeArgExpr`, `StarExpr`,
composite literals, calls, `ArrayType` (a nil length is a slice type),
`MapType`, `ChanType`, `StructType`, `FuncType` and a literal catch-all. -/
inductive Expr where
  | ident (name : String)
  | selector (x : Expr) (sel : String)
  | index (x : Expr) (idx : Expr)
  | typeArg (x : Expr) (args : List Expr)
  | star (x : Expr)
  | composite (ty : Expr) (elems : List Expr)
  | call (fn : Expr) (args : List Expr)
  | arrayT (len : Option Expr) (elt : Expr)
  | mapT (key : Expr) (val : Expr)
  | chanT (elem : Expr)
  | structT (fields : List (String × Expr))
  | funcT (params : List Expr) (results : List Expr)
  | lit (text : String)

/-- A `GenDecl` spec: a `TypeSpec` (name, optional `TypeParamDecl`, body) or
any other spec kind (imports, values), which the transformer passes
through. -/
inductive Spec where
  | typeSpec (name : String) (typeParams : Option (List String)) (ty : Expr)
  | otherSpec (tag : String)

/-- An `ast.FuncDecl`: optional receiver type expression (the single
receiver field's type), name, optional `TypeParamDecl`, parameter and
result type expressions, and the body as a list of expressions. -/
structure FuncD where
  recv : Option Expr
  name : String
  typeParams : Option (List String)
  params : List Expr
  results : List Expr
  body : List Expr

/-- A top-level declaration. -/
inductive Decl where
  | gen (specs : List Spec)
  | func (fd : FuncD)

/-- An `ast.File`: its list of top-level declarations. -/
def FileAst := List Decl

mutual

/-- A deterministic rendering of an expression, standing in for the fo
printer where the transformer needs a textual form (mangling input and the
stable tie-break ordering). -/
def exprToString : Expr → String
  | .ident n => n
  | .selector x s => exprToString x ++ "." ++ s
  | .index x i => exprToString x ++ "[" ++ exprToString i ++ "]"
  | .typeArg x args => exprToString x ++ "[" ++ exprListString args ++ "]"
  | .star x => "*" ++ exprToString x
  | .composite t es => exprToString t ++ "\x7b" ++ exprListString es ++ "\x7d"
  | .call f args => exprToString f ++ "(" ++ exprListString args ++ ")"
  | .arrayT none e => "[]" ++ exprToString e
  | .arrayT (some l) e => "[" ++ exprToString l ++ "]" ++ exprToString e
  | .mapT k v => "map[" ++ exprToString k ++ "]" ++ exprToString v
  | .chanT e => "chan " ++ exprToString e
  | .structT fs => "struct\x7b" ++ exprFieldsString fs ++ "\x7d"
  | .funcT ps rs => "func(" ++ exprListString ps ++ ")(" ++ exprListString rs ++ ")"
  | .lit s => s

def exprListString : List Expr → String
  | [] => ""
  | [e] => exprToString e
  | e :: rest => exprToString e ++ "," ++ exprListString rest

def exprFieldsString : List (String × Expr) → String
  | [] => ""
  | (n, e) :: rest => n ++ " " ++ exprToString e ++ ";" ++ exprFieldsString rest

end

/-- Modelled from the spec (§4.F; `exprToSafeString` is not under `src/`):
the safe identifier fragment of an expression's printed form. -/
def exprToSafeString (e : Expr) : String :=
  safeString (exprToString e)

mutual

/-- Modelled from the spec (§4.E "scoped identifier rewrite";
`typeToExpr` is not under `src/`): the syntactic type expression denoting a
type — identifier, pointer, slice, array, map or channel form.  Named and
basic types render as their identifier; signatures as a `FuncType`;
interfaces and concrete named types as an identifier of their string
form/name (no claim exercises those two). -/
def typeToExpr : Ty → Expr
  | .basic n => .ident n
  | .tparam p => .ident p
  | .ptr b => .star (typeToExpr b)
  | .slice e => .arrayT none (typeToExpr e)
  | .tmap k v => .mapT (typeToExpr k) (typeToExpr v)
  | .array n e => .arrayT (some (.lit (toString n))) (typeToExpr e)
  | .chan _ e => .chanT (typeToExpr e)
  | .strct fs _ => .structT (typeToExprFields fs)
  | .sig _ ps rs _ _ _ => .funcT (typeToExprSnds ps) (typeToExprSnds rs)
  | .named n _ _ _ => .ident n
  | .concreteNamed n _ _ _ _ => .ident n
  | .iface ms es => .ident (tyString (.iface ms es))
termination_by structural t => t

def typeToExprFields : List (String × Ty) → List (String × Expr)
  | [] => []
  | (n, t) :: rest => (n, typeToExpr t) :: typeToExprFields rest
termination_by structural fs => fs

def typeToExprSnds : List (String × Ty) → List Expr
  | [] => []
  | (_, t) :: rest => typeToExpr t :: typeToExprSnds rest
termination_by structural fs => fs

end

/-! ## Transformer state (`Transformer.Pkg.Generics()` and `Transformer.Info`) -/

/-- `types.SelectionKind`, restricted to what `replaceGenericIdents`
inspects. -/
inductive SelKind where
  | fieldVal
  | methodVal
  | other

/-- One entry of `Info.Selections`: the selection kind, the selected
object's name, and — when the selection's receiver is a `*ConcreteNamed` —
that receiver's object name. -/
structure Selection where
  kind : SelKind
  objName : String
  recvConcreteName : Option String

/-- The slice of `types.Info` the transformer reads.  Go keys
`Info.Selections` by `*ast.SelectorExpr` pointer and `Info.Uses` by
`*ast.Ident` pointer; the model keys selections structurally by the printed
form of the selector (operand text, selected name) and alias uses by the
identifier's name, mapping to the alias target's underlying type. -/
structure TInfo where
  selections : List ((String × String) × Selection)
  aliases : List (String × Ty)

def selLookup (info : TInfo) (x : Expr) (sel : String) : Option Selection :=
  (info.selections.find? fun e => e.1.1 = exprToString x && e.1.2 = sel).map (·.2)

/-- `Transformer.formatTypeArgs` (transform package): render each type
argument — using the alias target's underlying type for an identifier that
names a type alias, and the safe printed form otherwise — joined by
`"__"`. -/
def formatTypeArgs (info : TInfo) (args : List Expr) : String :=
  String.intercalate "__" (args.map fun arg =>
    match arg with
    | .ident n =>
        match tmLookup info.aliases n with
        | some t => typeToSafeString t
        | none => exprToSafeString arg
    | _ => exprToSafeString arg)

/-- `Transformer.concreteTypeName` (transform package): the mangled name of
the concrete declaration for one usage — the declaration name when
`decl.Type.TypeParams()` is empty, else the name followed by the safe
string forms of the usage's arguments in `decl.Type.TypeParams()` order,
each segment prefixed by `"__"`. -/
def concreteTypeName (decl : GenericDeclR) (typeMap : TypeMap) : String :=
  let stringParams :=
    (tyTypeParamsOf decl.typ).map fun p => typeToSafeString (tmLookupD typeMap p)
  match stringParams with
  | [] => decl.name
  | _ => decl.name ++ "__" ++ String.intercalate "__" stringParams

/-- `Transformer.concreteTypeExpr` (transform package): rewrite a
`TypeArgExpr` into a plain identifier (or a selector with a rewritten
selected name) spelled base-name + `"__"` + formatted arguments; any other
operand panics. -/
def concreteTypeExpr (info : TInfo) (x : Expr) (targs : List Expr) :
    Except String Expr :=
  match x with
  | .ident n => .ok (.ident (n ++ "__" ++ formatTypeArgs info targs))
  | .selector sx ss => .ok (.selector sx (ss ++ "__" ++ formatTypeArgs info targs))
  | _ => .error "type arguments for expr are not yet supported"

mutual

/-- `Transformer.replaceIdentsInScope` (transform package): the post-order
walk that replaces every identifier whose name is bound in the usage's map
by the syntactic form of the bound type.  (Go would also visit identifier
children that are not expressions — selector `Sel` fields, struct field
names — where a successful replacement is only possible when the
substituted form is itself an identifier; no claim exercises those
positions and the model leaves them in place.) -/
def replaceIdentsInScope : Expr → TypeMap → Expr
  | .ident n, typeMap =>
      match tmLookup typeMap n with
      | some t => typeToExpr t
      | none => .ident n
  | .selector x s, typeMap => .selector (replaceIdentsInScope x typeMap) s
  | .index x i, typeMap =>
      .index (replaceIdentsInScope x typeMap) (replaceIdentsInScope i typeMap)
  | .typeArg x args, typeMap =>
      .typeArg (replaceIdentsInScope x typeMap) (replaceIdentsList args typeMap)
  | .star x, typeMap => .star (replaceIdentsInScope x typeMap)
  | .composite t es, typeMap =>
      .composite (replaceIdentsInScope t typeMap) (replaceIdentsList es typeMap)
  | .call f args, typeMap =>
      .call (replaceIdentsInScope f typeMap) (replaceIdentsList args typeMap)
  | .arrayT none e, typeMap => .arrayT none (replaceIdentsInScope e typeMap)
  | .arrayT (some l) e, typeMap =>
      .arrayT (some (replaceIdentsInScope l typeMap)) (replaceIdentsInScope e typeMap)
  | .mapT k v, typeMap =>
      .mapT (replaceIdentsInScope k typeMap) (replaceIdentsInScope v typeMap)
  | .chanT e, typeMap => .chanT (replaceIdentsInScope e typeMap)
  | .structT fs, typeMap => .structT (replaceIdentsFields fs typeMap)
  | .funcT ps rs, typeMap =>
      .funcT (replaceIdentsList ps typeMap) (replaceIdentsList rs typeMap)
  | .lit s, _ => .lit s
termination_by structural e _ => e

def replaceIdentsList : List Expr → TypeMap → List Expr
  | [], _ => []
  | e :: rest, typeMap =>
      replaceIdentsInScope e typeMap :: replaceIdentsList rest typeMap
termination_by structural es _ => es

def replaceIdentsFields : List (String × Expr) → TypeMap → List (String × Expr)
  | [], _ => []
  | (n, e) :: rest, typeMap =>
      (n, replaceIdentsInScope e typeMap) :: replaceIdentsFields rest typeMap
termination_by structural fs _ => fs

end

/-- `replaceIdentsInScope` applied to a whole cloned `FuncDecl`: receiver,
parameter, result and body expressions.  (The function name has already
been set by the caller; `TypeParamDecl` names are not expressions.) -/
def replaceIdentsFuncD (fd : FuncD) (typeMap : TypeMap) : FuncD :=
  { fd with
    recv := match fd.recv with
      | none => none
      | some r => some (replaceIdentsInScope r typeMap)
    params := replaceIdentsList fd.params typeMap
    results := replaceIdentsList fd.results typeMap
    body := replaceIdentsList fd.body typeMap }

mutual

/-- The `astutil.Apply` closure inside `Transformer.expandReceiverType`
(transform package): within the receiver field, leave an existing
`TypeArgExpr` (and its children) untouched, and replace an identifier
spelling the generic declaration's name by a `TypeArgExpr` applying the
usage's type-parameter expressions. -/
def expandRecvExpr (dname : String) (targs : List Expr) : Expr → Expr
  | .typeArg x ts => .typeArg x ts
  | .ident n => if n = dname then .typeArg (.ident n) targs else .ident n
  | .selector x s => .selector (expandRecvExpr dname targs x) s
  | .index x i => .index (expandRecvExpr dname targs x) (expandRecvExpr dname targs i)
  | .star x => .star (expandRecvExpr dname targs x)
  | .composite t es => .composite (expandRecvExpr dname targs t) (expandRecvList dname targs es)
  | .call f args => .call (expandRecvExpr dname targs f) (expandRecvList dname targs args)
  | .arrayT none e => .arrayT none (expandRecvExpr dname targs e)
  | .arrayT (some l) e =>
      .arrayT (some (expandRecvExpr dname targs l)) (expandRecvExpr dname targs e)
  | .mapT k v => .mapT (expandRecvExpr dname targs k) (expandRecvExpr dname targs v)
  | .chanT e => .chanT (expandRecvExpr dname targs e)
  | .structT fs => .structT (expandRecvFields dname targs fs)
  | .funcT ps rs => .funcT (expandRecvList dname targs ps) (expandRecvList dname targs rs)
  | .lit s => .lit s
termination_by structural e => e

def expandRecvList (dname : String) (targs : List Expr) : List Expr → List Expr
  | [] => []
  | e :: rest => expandRecvExpr dname targs e :: expandRecvList dname targs rest
termination_by structural es => es

def expandRecvFields (dname : String) (targs : List Expr) :
    List (String × Expr) → List (String × Expr)
  | [] => []
  | (n, e) :: rest => (n, expandRecvExpr dname targs e) :: expandRecvFields dname targs rest
termination_by structural fs => fs

end

/-- `Transformer.recvTypeParams` (transform package): the syntactic type
arguments of one usage, in `decl.Type.TypeParams()` order. -/
def recvTypeParamsExprs (decl : GenericDeclR) (typeMap : TypeMap) : List Expr :=
  (tyTypeParamsOf decl.typ).map fun p => typeToExpr (tmLookupD typeMap p)

/-- `Transformer.expandReceiverType` (transform package): expand the
receiver type of a cloned method to its fully-parameterized form.  (Go
dereferences a nil `genDecl` only when the receiver holds a matching
identifier; with no generic receiver declaration the receiver is left
unchanged.) -/
def expandReceiverType (fd : FuncD) (genDecl : Option GenericDeclR)
    (typeMap : TypeMap) : FuncD :=
  match genDecl with
  | none => fd
  | some gd =>
      { fd with
        recv := match fd.recv with
          | none => none
          | some r => some (expandRecvExpr gd.name (recvTypeParamsExprs gd typeMap) r) }

/-! ## Pass 1 — `Transformer.generateConcreteTypes` -/

/-- `Transformer.generateTypeSpecs` (transform package): panic when the
spec's name has no registry record; reinterpret an unparameterized spec
whose body parses as `[len]elem` with an identifier length as a generic
spec with body `elem`; then emit, per recorded usage, a clone named by
`concreteTypeName` with its `TypeParamDecl` erased and the body rewritten
in scope. -/
def generateTypeSpecs (reg : Registry) (name : String)
    (typeParams : Option (List String)) (ty : Expr) : Except String (List Spec) :=
  match regLookup reg name with
  | none => .error ("could not find generic type declaration for " ++ name)
  | some genericDecl =>
      let body :=
        match typeParams, ty with
        | none, .arrayT (some (.ident _)) elt => elt
        | _, t => t
      .ok (genericDecl.usages.map fun u =>
        .typeSpec (concreteTypeName genericDecl u.2.typeMap) none
          (replaceIdentsInScope body u.2.typeMap))

/-- The comparator of the `sort.Slice` call in `generateConcreteTypes`:
specs that are not type specs compare first, type specs by name. -/
def specLe (a b : Spec) : Bool :=
  match a, b with
  | .typeSpec n1 _ _, .typeSpec n2 _ _ => decide (n1 < n2)
  | _, _ => true

/-- Insertion into a sorted list, `insertSorted le a l`. -/
def insertSorted (le : α → α → Bool) (a : α) : List α → List α
  | [] => [a]
  | b :: rest => if le a b then a :: b :: rest else b :: insertSorted le a rest

/-- A deterministic sort standing in for Go's `sort.Slice` (whose algorithm
is unspecified); only the comparator is taken from the source. -/
def sortBy (le : α → α → Bool) : List α → List α
  | [] => []
  | a :: rest => insertSorted le a (sortBy le rest)

/-- The spec-gathering loop of the `*ast.GenDecl` case of
`generateConcreteTypes`: non-type specs and specs of unregistered names
pass through and mark the declaration used; registered (generic) specs are
replaced by their emitted clones. -/
def gatherTypeSpecs (reg : Registry) : List Spec → Except String (List Spec × Bool)
  | [] => .ok ([], false)
  | s :: rest => do
      let hd : List Spec × Bool ←
        match s with
        | .otherSpec t => .ok ([.otherSpec t], true)
        | .typeSpec name tps ty =>
            if (regLookup reg name).isNone then
              .ok ([.typeSpec name tps ty], true)
            else do
              .ok ((← generateTypeSpecs reg name tps ty), false)
      let tl ← gatherTypeSpecs reg rest
      .ok (hd.1 ++ tl.1, hd.2 || tl.2)

/-- The `*ast.GenDecl` case of `generateConcreteTypes`: when any spec
survives, replace the declaration by a clone holding the sorted specs; when
none survives and nothing passed through, delete the declaration. -/
def generateConcreteTypesGen (reg : Registry) (specs : List Spec) :
    Except String (List Decl) := do
  let gathered ← gatherTypeSpecs reg specs
  if gathered.1.length > 0 then
    .ok [.gen (sortBy specLe gathered.1)]
  else if !gathered.2 then
    .ok []
  else
    .ok [.gen specs]

/-- The printed form used by `sortFuncs` to break ties between equal
names. -/
def funcDeclString (fd : FuncD) : String :=
  "func (" ++
    (match fd.recv with
     | none => ""
     | some r => exprToString r) ++ ") " ++ fd.name ++
    "(" ++ exprListString fd.params ++ ")(" ++ exprListString fd.results ++ ")"

/-- The comparator of `sortFuncs` (transform package): by name, ties broken
by the printed form of the whole declaration. -/
def funcLe (a b : FuncD) : Bool :=
  if a.name = b.name then decide (funcDeclString a < funcDeclString b)
  else decide (a.name < b.name)

/-- `Transformer.generateFuncDecls` after the receiver shape has been
decomposed: registry lookups, the panics for a parameterized declaration
missing from the registry, and the two cloning loops (own-parameter
functions/methods renamed per usage; parameterless methods on a generic
receiver cloned per receiver usage, keeping their name). -/
def generateFuncDeclsCore (reg : Registry) (fd : FuncD)
    (recvTypeName : Option String) (recvHasTypeArgs : Bool) :
    Except String (List FuncD × Bool) := do
  let gr : Option GenericDeclR × Bool ←
    match recvTypeName with
    | none => .ok (none, false)
    | some n =>
        match regLookup reg n with
        | some d => .ok (some d, true)
        | none =>
            if recvHasTypeArgs then
              .error ("could not find generic type declaration for " ++ n)
            else
              .ok (none, true)
  let genRecvDecl := gr.1
  let recvIsGeneric := gr.2
  let fkey :=
    match recvTypeName with
    | some n => n ++ "." ++ fd.name
    | none => fd.name
  match regLookup reg fkey with
  | some genFuncDecl =>
      .ok (genFuncDecl.usages.map (fun u =>
        let f1 := expandReceiverType fd genRecvDecl u.2.typeMap
        let f2 := { f1 with
          name := concreteTypeName genFuncDecl u.2.typeMap
          typeParams := none }
        replaceIdentsFuncD f2 u.2.typeMap), recvIsGeneric)
  | none =>
      if fd.typeParams.isSome then
        .error ("could not find generic type declaration for " ++ fkey)
      else
        match genRecvDecl with
        | some genRecv =>
            .ok (genRecv.usages.map (fun u =>
              replaceIdentsFuncD (expandReceiverType fd (some genRecv) u.2.typeMap)
                u.2.typeMap), recvIsGeneric)
        | none => .ok ([], recvIsGeneric)

/-- `Transformer.generateFuncDecls` (transform package): unwrap the receiver
type through `StarExpr` and `TypeArgExpr`, require an identifier underneath
(else panic), then hand off to the registry-driven cloning. -/
def generateFuncDecls (reg : Registry) (fd : FuncD) :
    Except String (List FuncD × Bool) :=
  let recv1 : Option Expr :=
    match fd.recv with
    | some (.star x) => some x
    | r => r
  match recv1 with
  | some (.typeArg x _) =>
      match x with
      | .ident n => generateFuncDeclsCore reg fd (some n) true
      | _ => .error "invalid receiver type expression"
  | some (.ident n) => generateFuncDeclsCore reg fd (some n) false
  | some _ => .error "invalid receiver type expression"
  | none => generateFuncDeclsCore reg fd none false

/-- Pass 1, `astutil.Apply(f, trans.generateConcreteTypes(), nil)`: process
each top-level declaration — `GenDecl`s through the spec loop, `FuncDecl`s
through `generateFuncDecls` with empty results deleted when the receiver
was classified generic or the declaration carries type parameters, and
non-empty results inserted sorted in place of the original. -/
def generateConcreteTypes (reg : Registry) : List Decl → Except String (List Decl)
  | [] => .ok []
  | d :: rest => do
      let hd : List Decl ←
        match d with
        | .gen specs => generateConcreteTypesGen reg specs
        | .func fd => do
            let generated ← generateFuncDecls reg fd
            if generated.1.isEmpty then
              if generated.2 || fd.typeParams.isSome then .ok []
              else .ok [.func fd]
            else
              .ok ((sortBy funcLe generated.1).map .func)
      let tl ← generateConcreteTypes reg rest
      .ok (hd ++ tl)


/-! ## Pass 2 — `Transformer.replaceGenericIdents` -/

mutual

/-- Pass 2, `astutil.Apply(withConcreteTypes, trans.replaceGenericIdents(),
nil)` (transform package): rewrite every `TypeArgExpr` through
`concreteTypeExpr`, and promote an ambiguous `IndexExpr` — over an
identifier naming a registry record, or over a selector whose recorded
selection resolves to a field key `Member` or method key
`ReceiverTypeName.Member` present in the registry — to a `TypeArgExpr`
before rewriting it.  `astutil.Apply` walks the children of the *original*
node after a replacement, so nothing inside a freshly built replacement is
rewritten further (the selector promotion moreover returns `false`,
skipping its children entirely); mutations of such detached originals do
not reach the output and are not modelled. -/
def replaceGenericIdents (reg : Registry) (info : TInfo) :
    Expr → Except String Expr
  | .typeArg x targs => concreteTypeExpr info x targs
  | .index (.ident n) i =>
      if (regLookup reg n).isSome then
        concreteTypeExpr info (.ident n) [i]
      else do
        .ok (.index (.ident n) (← replaceGenericIdents reg info i))
  | .index (.selector sx ss) i =>
      match selLookup info sx ss with
      | none => do
          .ok (.index (.selector (← replaceGenericIdents reg info sx) ss)
                 (← replaceGenericIdents reg info i))
      | some selection =>
          let key :=
            match selection.kind with
            | .fieldVal => selection.objName
            | .methodVal =>
                match selection.recvConcreteName with
                | some rn => rn ++ "." ++ selection.objName
                | none => ""
            | .other => ""
          if key ≠ "" ∧ (regLookup reg key).isSome then
            concreteTypeExpr info (.selector sx ss) [i]
          else do
            .ok (.index (.selector (← replaceGenericIdents reg info sx) ss)
                   (← replaceGenericIdents reg info i))
  | .index x i => do
      .ok (.index (← replaceGenericIdents reg info x)
             (← replaceGenericIdents reg info i))
  | .ident n => .ok (.ident n)
  | .selector x s => do .ok (.selector (← replaceGenericIdents reg info x) s)
  | .star x => do .ok (.star (← replaceGenericIdents reg info x))
  | .composite t es => do
      .ok (.composite (← replaceGenericIdents reg info t)
             (← replaceGenericIdentsList reg info es))
  | .call f args => do
      .ok (.call (← replaceGenericIdents reg info f)
             (← replaceGenericIdentsList reg info args))
  | .arrayT none e => do .ok (.arrayT none (← replaceGenericIdents reg info e))
  | .arrayT (some l) e => do
      .ok (.arrayT (some (← replaceGenericIdents reg info l))
             (← replaceGenericIdents reg info e))
  | .mapT k v => do
      .ok (.mapT (← replaceGenericIdents reg info k)
             (← replaceGenericIdents reg info v))
  | .chanT e => do .ok (.chanT (← replaceGenericIdents reg info e))
  | .structT fs => do .ok (.structT (← replaceGenericIdentsFields reg info fs))
  | .funcT ps rs => do
      .ok (.funcT (← replaceGenericIdentsList reg info ps)
             (← replaceGenericIdentsList reg info rs))
  | .lit s => .ok (.lit s)
termination_by structural e => e

def replaceGenericIdentsList (reg : Registry) (info : TInfo) :
    List Expr → Except String (List Expr)
  | [] => .ok []
  | e :: rest => do
      .ok ((← replaceGenericIdents reg info e) ::
             (← replaceGenericIdentsList reg info rest))
termination_by structural es => es

def replaceGenericIdentsFields (reg : Registry) (info : TInfo) :
    List (String × Expr) → Except String (List (String × Expr))
  | [] => .ok []
  | (n, e) :: rest => do
      .ok ((n, ← replaceGenericIdents reg info e) ::
             (← replaceGenericIdentsFields reg info rest))
termination_by structural fs => fs

end

/-- Pass 2 over one spec: only the type-spec body holds expressions. -/
def replaceGenericIdentsSpec (reg : Registry) (info : TInfo) :
    Spec → Except String Spec
  | .typeSpec n tps ty => do .ok (.typeSpec n tps (← replaceGenericIdents reg info ty))
  | .otherSpec t => .ok (.otherSpec t)

def replaceGenericIdentsSpecs (reg : Registry) (info : TInfo) :
    List Spec → Except String (List Spec)
  | [] => .ok []
  | s :: rest => do
      .ok ((← replaceGenericIdentsSpec reg info s) ::
             (← replaceGenericIdentsSpecs reg info rest))

/-- Pass 2 over a function declaration: receiver, parameter, result and
body expressions (`TypeParamDecl` fields hold no expressions and are not
visited by the pass-2 cases). -/
def replaceGenericIdentsFuncD (reg : Registry) (info : TInfo) (fd : FuncD) :
    Except String FuncD := do
  let newRecv : Option Expr ←
    match fd.recv with
    | none => .ok none
    | some r => do .ok (some (← replaceGenericIdents reg info r))
  .ok { fd with
        recv := newRecv
        params := ← replaceGenericIdentsList reg info fd.params
        results := ← replaceGenericIdentsList reg info fd.results
        body := ← replaceGenericIdentsList reg info fd.body }

def replaceGenericIdentsFile (reg : Registry) (info : TInfo) :
    List Decl → Except String (List Decl)
  | [] => .ok []
  | .gen specs :: rest => do
      .ok (.gen (← replaceGenericIdentsSpecs reg info specs) ::
             (← replaceGenericIdentsFile reg info rest))
  | .func fd :: rest => do
      .ok (.func (← replaceGenericIdentsFuncD reg info fd) ::
             (← replaceGenericIdentsFile reg info rest))

/-- `Transformer.File` (transform package): pass 1 then pass 2. -/
def transformFile (reg : Registry) (info : TInfo) (f : FileAst) :
    Except String FileAst := do
  replaceGenericIdentsFile reg info (← generateConcreteTypes reg f)

/-! ## Node detectors for the output-tree invariant (claim C1) -/

mutual

/-- Does the expression contain a `TypeArgExpr` node? -/
def exprHasTypeArg : Expr → Bool
  | .ident _ => false
  | .selector x _ => exprHasTypeArg x
  | .index x i => exprHasTypeArg x || exprHasTypeArg i
  | .typeArg _ _ => true
  | .star x => exprHasTypeArg x
  | .composite t es => exprHasTypeArg t || exprListHasTypeArg es
  | .call f args => exprHasTypeArg f || exprListHasTypeArg args
  | .arrayT none e => exprHasTypeArg e
  | .arrayT (some l) e => exprHasTypeArg l || exprHasTypeArg e
  | .mapT k v => exprHasTypeArg k || exprHasTypeArg v
  | .chanT e => exprHasTypeArg e
  | .structT fs => exprFieldsHaveTypeArg fs
  | .funcT ps rs => exprListHasTypeArg ps || exprListHasTypeArg rs
  | .lit _ => false
termination_by structural e => e

def exprListHasTypeArg : List Expr → Bool
  | [] => false
  | e :: rest => exprHasTypeArg e || exprListHasTypeArg rest
termination_by structural es => es

def exprFieldsHaveTypeArg : List (String × Expr) → Bool
  | [] => false
  | (_, e) :: rest => exprHasTypeArg e || exprFieldsHaveTypeArg rest
termination_by structural fs => fs

end

def specHasTypeArg : Spec → Bool
  | .typeSpec _ _ ty => exprHasTypeArg ty
  | .otherSpec _ => false

def funcDHasTypeArg (fd : FuncD) : Bool :=
  (match fd.recv with
   | none => false
   | some r => exprHasTypeArg r) ||
  exprListHasTypeArg fd.params || exprListHasTypeArg fd.results ||
  exprListHasTypeArg fd.body

def fileHasTypeArg : FileAst → Bool
  | [] => false
  | .gen specs :: rest => specs.any specHasTypeArg || fileHasTypeArg rest
  | .func fd :: rest => funcDHasTypeArg fd || fileHasTypeArg rest


/-! ## Fixtures used by the claim theorems -/

/-- An empty `types.Info` (no selections, no aliases). -/
def emptyInfo : TInfo := ⟨[], []⟩

/-- A registry holding one generic type `Box[T]` with no recorded usages. -/
def exBoxReg : Registry :=
  [("Box", ⟨"Box", .named "Box" (.strct [("val", .tparam "T")] []) [] ["T"],
    ["T"], []⟩)]

/-- The C6 failing input: `type S string` (not generic, hence not in the
registry) together with the method `func (s S) m() { 1 }`, in a package
with no generic declarations at all. -/
def exC6file : FileAst :=
  [.gen [.typeSpec "S" none (.ident "string")],
   .func ⟨some (.ident "S"), "m", none, [], [], [.lit "1"]⟩]

/-- The C9 registry: `type A[T] T` with the single recorded usage
`A[bool]`. -/
def exC9reg : Registry :=
  [("A", ⟨"A", .named "A" (.tparam "T") [] ["T"], ["T"],
    [("bool", ⟨[("T", .basic "bool")], .basic "placeholder"⟩)]⟩)]

/-- The C9 source file: `type A[T] T` and the parameterless method
`func (A[T]) f0() T  \x7b T \x7d`. -/
def exC9src : FileAst :=
  [.gen [.typeSpec "A" (some ["T"]) (.ident "T")],
   .func ⟨some (.typeArg (.ident "A") [.ident "T"]), "f0", none, [], [.ident "T"],
          [.ident "T"]⟩]

/-- The first transformation's output for `exC9src`: the concrete type
`A__bool` and the method on the concrete receiver `A__bool`. -/
def exC9out : FileAst :=
  [.gen [.typeSpec "A__bool" none (.ident "bool")],
   .func ⟨some (.ident "A__bool"), "f0", none, [], [.ident "bool"], [.ident "bool"]⟩]

/-- The generic type `B[T]` of the C1 failing input. -/
def exC1tyB : Ty := .named "B" (.strct [("v", .tparam "T")] []) [] ["T"]

/-- The generic method `func (b B[T]) f0[V](x V)` of the C1 failing input:
its signature carries the method's own parameter `V`, the receiver's
parameter `T` being in `recvTypeParams`. -/
def exC1tyF : Ty := .sig (some ("b", exC1tyB)) [("x", .tparam "V")] [] false ["V"] ["T"]

/-- The C1 registry: `B` used at `B[int]`, and the generic method `B.f0`
(registry parameters receiver-first) used at `T=int, V=string`. -/
def exC1reg : Registry :=
  [("B", ⟨"B", exC1tyB, ["T"], [("int", ⟨[("T", .basic "int")], .basic "u"⟩)]⟩),
   ("B.f0", ⟨"B.f0", exC1tyF, ["T", "V"],
     [("int,string", ⟨[("T", .basic "int"), ("V", .basic "string")], .basic "u"⟩)]⟩)]

/-- The composite-literal receiver `B[int]\x7b42\x7d` of the C1 failing
input. -/
def exC1recv : Expr := .composite (.typeArg (.ident "B") [.ident "int"]) [.lit "42"]

/-- The checker's recorded selection for `B[int]\x7b42\x7d.f0`: a method
value on the concrete named receiver `B`. -/
def exC1info : TInfo :=
  ⟨[((exprToString exC1recv, "f0"), ⟨.methodVal, "f0", some "B"⟩)], []⟩

/-- The C1 failing input: `type B[T] struct \x7b v T \x7d`, the generic
method `func (b B[T]) f0[V](x V) \x7b x \x7d`, and a `main` whose body
calls `B[int]\x7b42\x7d.f0[string]()` — an `IndexExpr` over a selector
whose operand contains a `TypeArgExpr`. -/
def exC1file : FileAst :=
  [.gen [.typeSpec "B" (some ["T"]) (.structT [("v", .ident "T")])],
   .func ⟨some (.typeArg (.ident "B") [.ident "T"]), "f0", some ["V"],
          [.ident "V"], [], [.ident "V"]⟩,
   .func ⟨none, "main", none, [], [],
          [.call (.index (.selector exC1recv "f0") (.ident "string")) []]⟩]

/-- The C8 counterexample interface: `interface \x7b f(x T) \x7d`, an
interface with one explicit method mentioning the type parameter `T`. -/
def exC8iface : Ty := .iface [("f", .sig none [("x", .tparam "T")] [] false [] [])] []

/-- What claim C8 says `replaceTypes` turns `exC8iface` into under
`T ↦ int`: the method signature substituted. -/
def exC8substituted : Ty :=
  .iface [("f", .sig none [("x", .basic "int")] [] false [] [])] []

/-! ## Helper lemmas -/

theorem regLookup_regInsert_self :
    ∀ (reg : Registry) (k : String) (d : GenericDeclR),
      regLookup (regInsert reg k d) k = some d
  | [], k, d => by simp [regInsert, regLookup]
  | (k', d') :: rest, k, d => by
      by_cases h : k' = k
      · simp [regInsert, regLookup, h]
      · simp [regInsert, regLookup, h, regLookup_regInsert_self rest k d]

theorem regInsert_regInsert :
    ∀ (reg : Registry) (k : String) (d1 d2 : GenericDeclR),
      regInsert (regInsert reg k d1) k d2 = regInsert reg k d2
  | [], k, d1, d2 => by simp [regInsert]
  | (k', d') :: rest, k, d1, d2 => by
      by_cases h : k' = k
      · simp [regInsert, h]
      · simp [regInsert, h, regInsert_regInsert rest k d1 d2]

theorem usgInsert_usgInsert :
    ∀ (u : List (String × GenericUsage)) (k : String) (v1 v2 : GenericUsage),
      usgInsert (usgInsert u k v1) k v2 = usgInsert u k v2
  | [], k, v1, v2 => by simp [usgInsert]
  | (k', e) :: rest, k, v1, v2 => by
      by_cases h : k' = k
      · simp [usgInsert, h]
      · simp [usgInsert, h, usgInsert_usgInsert rest k v1 v2]

theorem tyStringsFor_of_covered :
    ∀ (tm : TypeMap) (tps : List String),
      (∀ p ∈ tps, (tmLookup tm p).isSome) →
      tyStringsFor tm tps = some (tps.map fun p => tyString (tmLookupD tm p))
  | _, [], _ => rfl
  | tm, p :: rest, h => by
      obtain ⟨a, ha⟩ := Option.isSome_iff_exists.mp (h p (by simp))
      have ih := tyStringsFor_of_covered tm rest (fun q hq => h q (by simp [hq]))
      simp [tyStringsFor, ha, ih, tmLookupD]

theorem tyStringsFor_congr :
    ∀ (tm1 tm2 : TypeMap) (tps : List String),
      (∀ p ∈ tps, ∃ a b, tmLookup tm1 p = some a ∧ tmLookup tm2 p = some b ∧
        tyString a = tyString b) →
      tyStringsFor tm1 tps = tyStringsFor tm2 tps
  | _, _, [], _ => rfl
  | tm1, tm2, p :: rest, h => by
      obtain ⟨a, b, ha, hb, hab⟩ := h p (by simp)
      have ih := tyStringsFor_congr tm1 tm2 rest (fun q hq => h q (by simp [hq]))
      simp only [tyStringsFor, ha, hb, hab, ih]
      cases tyStringsFor tm2 rest <;> simp [hab]

theorem usgAll_usgInsert (P : String × GenericUsage → Bool) :
    ∀ (u : List (String × GenericUsage)) (k : String) (v : GenericUsage),
      u.all P = true → P (k, v) = true → (usgInsert u k v).all P = true
  | [], k, v, _, hv => by simp [usgInsert, hv]
  | (k', e) :: rest, k, v, hall, hv => by
      simp only [List.all_cons, Bool.and_eq_true] at hall
      by_cases h : k' = k
      · simp [usgInsert, h, hv, hall.2]
      · simp [usgInsert, h, hall.1, usgAll_usgInsert P rest k v hall.2 hv]

theorem regNoPartial_lookup :
    ∀ (reg : Registry) (name : String) (d : GenericDeclR),
      regNoPartial reg = true → regLookup reg name = some d →
      (d.usages.all fun u => !tmHasTParamValue u.2.typeMap) = true
  | [], _, _, _, hlook => by simp [regLookup] at hlook
  | (k', d') :: rest, name, d, hall, hlook => by
      simp only [regNoPartial, List.all_cons, Bool.and_eq_true] at hall
      by_cases h : k' = name
      · simp [regLookup, h] at hlook
        simpa [← hlook] using hall.1
      · simp only [regLookup, h, if_false] at hlook
        exact regNoPartial_lookup rest name d hall.2 hlook

theorem regNoPartial_regInsert :
    ∀ (reg : Registry) (k : String) (d : GenericDeclR),
      regNoPartial reg = true →
      (d.usages.all fun u => !tmHasTParamValue u.2.typeMap) = true →
      regNoPartial (regInsert reg k d) = true
  | [], k, d, _, hd => by simp [regInsert, regNoPartial, hd]
  | (k', d') :: rest, k, d, hall, hd => by
      simp only [regNoPartial, List.all_cons, Bool.and_eq_true] at hall
      by_cases h : k' = k
      · simp [regInsert, regNoPartial, h, hd, hall.2]
      · have := regNoPartial_regInsert rest k d hall.2 hd
        simp only [regNoPartial] at this
        simp [regInsert, regNoPartial, h, hall.1, this]

theorem replaceTypesFields_congrSpec :
    ∀ (fs : List (String × Ty)) (tm : TypeMap),
      (∀ f ∈ fs, replaceTypes f.2 tm = replaceTypesSpecC3 f.2 tm) →
      replaceTypesFields fs tm = replaceTypesSpecC3Fields fs tm
  | [], _, _ => rfl
  | (n, t) :: rest, tm, h => by
      have h1 := h (n, t) (by simp)
      have ih := replaceTypesFields_congrSpec rest tm (fun f hf => h f (by simp [hf]))
      simp only [replaceTypesFields, replaceTypesSpecC3Fields]
      rw [h1, ih]

/-! ## Claim theorems -/

/-- Claim C3: for every root type built from the node kinds the claim
enumerates (type-parameter and basic leaves under pointer, slice, array,
channel, map, struct and signature nodes) and every parameter map,
`replaceTypes` returns exactly what the spec's words prescribe
(`replaceTypesSpecC3`): identical shape, each type-parameter leaf bound to
a non-parameter type replaced, parameters unbound or bound to another
parameter left intact, and the listed compound nodes copied with their
element, key, field, parameter and result types recursed. -/
theorem claimC3 (root : Ty) (typeMap : TypeMap) (h : C3Frag root) :
    replaceTypes root typeMap = replaceTypesSpecC3 root typeMap := by
  induction h with
  | basic n => rfl
  | tparam p => rfl
  | ptr hb ih => simp only [replaceTypes, replaceTypesSpecC3]; rw [ih]
  | slice he ih => simp only [replaceTypes, replaceTypesSpecC3]; rw [ih]
  | tmap hk he ihk ihe => simp only [replaceTypes, replaceTypesSpecC3]; rw [ihk, ihe]
  | array n he ih => simp only [replaceTypes, replaceTypesSpecC3]; rw [ih]
  | chan d he ih => simp only [replaceTypes, replaceTypesSpecC3]; rw [ih]
  | strct tags hfs ih =>
      simp only [replaceTypes, replaceTypesSpecC3]
      rw [replaceTypesFields_congrSpec _ _ ih]
  | sig v tps rtps hr hps hrs ihr ihps ihrs =>
      rename_i r ps rs
      cases r with
      | none =>
          simp only [replaceTypes, replaceTypesSpecC3]
          rw [replaceTypesFields_congrSpec ps _ ihps,
              replaceTypesFields_congrSpec rs _ ihrs]
      | some f =>
          obtain ⟨n, t⟩ := f
          simp only [replaceTypes, replaceTypesSpecC3]
          rw [replaceTypesFields_congrSpec ps _ ihps,
              replaceTypesFields_congrSpec rs _ ihrs,
              ihr (n, t) (by simp [Option.mem_def])]

/-- Witness for claim C3 at a concrete input: the root `map[T]*U` lies in
the fragment, and under `T ↦ int, U ↦ V` (V itself a parameter) the engine
replaces `T`, keeps `U`, and preserves the shape. -/
theorem claimC3_witness :
    replaceTypes (.tmap (.tparam "T") (.ptr (.tparam "U")))
        [("T", .basic "int"), ("U", .tparam "V")] =
      replaceTypesSpecC3 (.tmap (.tparam "T") (.ptr (.tparam "U")))
        [("T", .basic "int"), ("U", .tparam "V")] ∧
    replaceTypes (.tmap (.tparam "T") (.ptr (.tparam "U")))
        [("T", .basic "int"), ("U", .tparam "V")] =
      .tmap (.basic "int") (.ptr (.tparam "U")) :=
  ⟨claimC3 _ _ (.tmap (.tparam "T") (.ptr (.tparam "U"))), rfl⟩

/-- Claim C8 counterexample: the claim states that `replaceTypes` on an
interface substitutes the explicit method signatures under the map, so on
`exC8iface` with `T ↦ int` it would have to return `exC8substituted`; the
code has no interface case in its switch and returns the interface
unchanged, so the claim is false at this input. -/
theorem claimC8_counterexample :
    replaceTypes exC8iface [("T", .basic "int")] = exC8iface ∧
    replaceTypes exC8iface [("T", .basic "int")] ≠ exC8substituted := by
  refine ⟨rfl, fun heq => ?_⟩
  rw [show replaceTypes exC8iface [("T", .basic "int")] = exC8iface from rfl] at heq
  simp [exC8iface, exC8substituted] at heq

/-- Claim C8 as amended: applying the substitution engine to an interface
type does not recurse into it — `*Interface` falls through the type switch
of `replaceTypes`, so the interface is returned unchanged (its explicit
methods and embedded types are not substituted and its method set is not
recomputed). -/
theorem claimC8 (ms : List (String × Ty)) (es : List Ty) (typeMap : TypeMap) :
    replaceTypes (.iface ms es) typeMap = .iface ms es := by
  simp [replaceTypes]

/-- Claim C4: `usageKey(typeMap, typeParams)` is the `","`-joined
concatenation of the string forms of `typeMap[p]` in declaration parameter
order; consequently two registering `addGenericUsage` calls on the same
declaration whose maps give every parameter arguments of identical string
form produce the same key, and the registry after both calls holds one
merged record — it equals the registry produced by the second call alone. -/
theorem claimC4 :
    (∀ (typeMap : TypeMap) (typeParams : List String),
        (∀ p ∈ typeParams, (tmLookup typeMap p).isSome) →
        usageKey typeMap typeParams =
          some (String.intercalate ","
            (typeParams.map fun p => tyString (tmLookupD typeMap p))))
    ∧
    (∀ (reg : Registry) (name : String) (d : GenericDeclR) (t1 t2 : Ty)
        (tm1 tm2 : TypeMap),
        regLookup reg name = some d →
        tmHasTParamValue tm1 = false → tmHasTParamValue tm2 = false →
        (∀ p ∈ d.typeParams, ∃ a b, tmLookup tm1 p = some a ∧
            tmLookup tm2 p = some b ∧ tyString a = tyString b) →
        usageKey tm1 d.typeParams = usageKey tm2 d.typeParams ∧
        ((addGenericUsage reg name t1 tm1).bind fun reg1 =>
            addGenericUsage reg1 name t2 tm2) =
          addGenericUsage reg name t2 tm2) := by
  constructor
  · intro typeMap typeParams hcov
    simp [usageKey, tyStringsFor_of_covered typeMap typeParams hcov]
  · intro reg name d t1 t2 tm1 tm2 hlook h1 h2 hstr
    have hkeys : usageKey tm1 d.typeParams = usageKey tm2 d.typeParams := by
      simp [usageKey, tyStringsFor_congr tm1 tm2 d.typeParams hstr]
    refine ⟨hkeys, ?_⟩
    have hcov1 : ∀ p ∈ d.typeParams, (tmLookup tm1 p).isSome := by
      intro p hp
      obtain ⟨a, b, ha, hb, hab⟩ := hstr p hp
      simp [ha]
    have hk1 : usageKey tm1 d.typeParams =
        some (String.intercalate ","
          (d.typeParams.map fun p => tyString (tmLookupD tm1 p))) := by
      simp [usageKey, tyStringsFor_of_covered tm1 d.typeParams hcov1]
    have hk2 : usageKey tm2 d.typeParams =
        some (String.intercalate ","
          (d.typeParams.map fun p => tyString (tmLookupD tm1 p))) := by
      rw [← hkeys]; exact hk1
    simp only [addGenericUsage, h1, h2, hlook, hk1, Bool.false_eq_true,
      if_false, Except.bind]
    rw [regLookup_regInsert_self]
    simp only [hk2]
    rw [usgInsert_usgInsert, regInsert_regInsert]

/-- Witness for claim C4 at concrete inputs: a two-parameter key, and two
usages of `Box[T]` whose arguments (`int` and a named type whose string
form is also `int`) have identical string forms and merge to one record. -/
theorem claimC4_witness :
    usageKey [("T", Ty.basic "int"), ("U", Ty.basic "string")] ["T", "U"] =
      some (String.intercalate ","
        (["T", "U"].map fun p =>
          tyString (tmLookupD [("T", Ty.basic "int"), ("U", Ty.basic "string")] p))) ∧
    ((addGenericUsage [("Box", ⟨"Box", Ty.basic "g", ["T"], []⟩)] "Box"
        (.basic "u1") [("T", .basic "int")]).bind fun reg1 =>
      addGenericUsage reg1 "Box" (.basic "u2")
        [("T", .named "int" (.basic "int32") [] [])]) =
    addGenericUsage [("Box", ⟨"Box", Ty.basic "g", ["T"], []⟩)] "Box"
      (.basic "u2") [("T", .named "int" (.basic "int32") [] [])] := by
  constructor
  · exact claimC4.1 _ _ (by intro p hp; fin_cases hp <;> simp [tmLookup]
      )
  · exact (claimC4.2 [("Box", ⟨"Box", Ty.basic "g", ["T"], []⟩)] "Box"
      ⟨"Box", Ty.basic "g", ["T"], []⟩ (.basic "u1") (.basic "u2")
      [("T", .basic "int")] [("T", .named "int" (.basic "int32") [] [])]
      rfl rfl rfl
      (by
        intro p hp
        fin_cases hp
        exact ⟨.basic "int", .named "int" (.basic "int32") [] [],
          rfl, rfl, rfl⟩)).2

/-- Claim C5: a `addGenericUsage` call whose map holds at least one
type-parameter value leaves the registry completely unchanged, and
consequently the registry never contains a partial usage: any successful
call preserves the invariant that every recorded usage's map has only
non-parameter values. -/
theorem claimC5 :
    (∀ (reg : Registry) (name : String) (t : Ty) (tm : TypeMap),
        tmHasTParamValue tm = true → addGenericUsage reg name t tm = .ok reg)
    ∧
    (∀ (reg : Registry) (name : String) (t : Ty) (tm : TypeMap) (reg' : Registry),
        regNoPartial reg = true → addGenericUsage reg name t tm = .ok reg' →
        regNoPartial reg' = true) := by
  constructor
  · intro reg name t tm h
    simp [addGenericUsage, h]
  · intro reg name t tm reg' hreg hok
    by_cases h : tmHasTParamValue tm = true
    · simp [addGenericUsage, h] at hok
      rw [← hok]
      exact hreg
    · simp only [Bool.not_eq_true] at h
      simp only [addGenericUsage, h, Bool.false_eq_true, if_false] at hok
      cases hlook : regLookup reg name with
      | none => simp [hlook] at hok
      | some d =>
          simp only [hlook] at hok
          cases hkey : usageKey tm d.typeParams with
          | none => simp [hkey] at hok
          | some key =>
              simp only [hkey, Except.ok.injEq] at hok
              rw [← hok]
              exact regNoPartial_regInsert reg name _ hreg
                (usgAll_usgInsert _ d.usages key ⟨tm, t⟩
                  (regNoPartial_lookup reg name d hreg hlook) (by simp [h]))

/-- Witness for claim C5 at concrete inputs: a partial map (`U ↦ V`, a
parameter) leaves a registry unchanged, and a successful recording call on
a partial-free registry keeps it partial-free. -/
theorem claimC5_witness :
    addGenericUsage exBoxReg "Box" (.basic "u")
        [("T", .basic "int"), ("U", .tparam "V")] = .ok exBoxReg ∧
    regNoPartial
      ((addGenericUsage exBoxReg "Box" (.basic "u")
          [("T", .basic "int")]).toOption.getD []) = true := by
  constructor
  · exact claimC5.1 exBoxReg "Box" (.basic "u")
      [("T", .basic "int"), ("U", .tparam "V")] rfl
  · exact claimC5.2 exBoxReg "Box" (.basic "u") [("T", .basic "int")] _ rfl rfl

/-- Claim C10: with a parameter-free map, `addGenericUsage` on a name
absent from the registry panics with `declaration not found for generic
object` instead of inserting a record; and once `addGenericDecl` has run
for that name, the not-found panic branch is unreachable. -/
theorem claimC10 :
    (∀ (reg : Registry) (name : String) (t : Ty) (tm : TypeMap),
        tmHasTParamValue tm = false → regLookup reg name = none →
        addGenericUsage reg name t tm = .error .declNotFound)
    ∧
    (∀ (reg : Registry) (name : String) (typ : Ty) (tps : List String)
        (t : Ty) (tm : TypeMap),
        addGenericUsage (addGenericDecl reg name typ tps) name t tm ≠
          .error .declNotFound) := by
  constructor
  · intro reg name t tm h hlook
    simp [addGenericUsage, h, hlook]
  · intro reg name typ tps t tm
    by_cases h : tmHasTParamValue tm = true
    · simp [addGenericUsage, h]
    · simp only [Bool.not_eq_true] at h
      simp only [addGenericUsage, h, Bool.false_eq_true, if_false,
        addGenericDecl]
      rw [regLookup_regInsert_self]
      cases hkey : usageKey tm tps with
      | none => simp [hkey]
      | some key => simp [hkey]

/-- Witness for claim C10 at concrete inputs: recording `List[int]` in an
empty registry panics with the not-found error; after `addGenericDecl` the
same call does not hit that branch. -/
theorem claimC10_witness :
    addGenericUsage [] "List" (.basic "u") [("T", .basic "int")] =
      .error .declNotFound ∧
    addGenericUsage (addGenericDecl [] "List" (.basic "g") ["T"]) "List"
        (.basic "u") [("T", .basic "int")] ≠ .error .declNotFound :=
  ⟨claimC10.1 [] "List" (.basic "u") [("T", .basic "int")] rfl rfl,
   claimC10.2 [] "List" (.basic "g") ["T"] (.basic "u") [("T", .basic "int")]⟩

/-- Claim C7 (evaluation at the failing input): for `type Box[T]` applied
to two type arguments, the checker path `createTypeMap` → `concreteType`
reports the arity error with both counts, but then — instead of giving the
expression the Invalid type — continues with the nil map, builds a bogus
concrete type, and attempts to record a usage, panicking inside `usageKey`
on the nil type string. -/
theorem claimC7_eval :
    concreteTypeNamed exBoxReg "Box" ["T"] (.strct [("val", .tparam "T")] []) []
        [.basic "int", .basic "string"] =
      (["wrong number of type parameters (expected 1 but got 2)"],
       .error .nilTypeString) := rfl

/-- Claim C2: pass 1 emits exactly one concrete declaration per recorded
usage — `generateTypeSpecs` emits `|usages|` specs for a registered type
spec, `generateFuncDecls` emits `|usages|` clones for a registered function
and for a parameterless method on a registered generic receiver — and a
generic declaration with zero recorded usages is deleted outright by the
pass (both for a type declaration and for a function declaration). -/
theorem claimC2 :
    (∀ (reg : Registry) (name : String) (tps : Option (List String)) (ty : Expr)
        (d : GenericDeclR),
        regLookup reg name = some d →
        (generateTypeSpecs reg name tps ty).map List.length = .ok d.usages.length)
    ∧
    (∀ (reg : Registry) (fd : FuncD) (d : GenericDeclR),
        fd.recv = none →
        regLookup reg fd.name = some d →
        (generateFuncDecls reg fd).map (fun r => r.1.length) = .ok d.usages.length)
    ∧
    (∀ (reg : Registry) (fd : FuncD) (n : String) (ts : List Expr)
        (grd : GenericDeclR),
        fd.recv = some (.typeArg (.ident n) ts) →
        fd.typeParams = none →
        regLookup reg n = some grd →
        regLookup reg (n ++ "." ++ fd.name) = none →
        (generateFuncDecls reg fd).map (fun r => r.1.length) = .ok grd.usages.length)
    ∧
    (∀ (reg : Registry) (name : String) (tps : Option (List String)) (ty : Expr)
        (d : GenericDeclR),
        regLookup reg name = some d → d.usages = [] →
        generateConcreteTypes reg [.gen [.typeSpec name tps ty]] = .ok [])
    ∧
    (∀ (reg : Registry) (fd : FuncD) (d : GenericDeclR),
        fd.recv = none → fd.typeParams.isSome →
        regLookup reg fd.name = some d → d.usages = [] →
        generateConcreteTypes reg [.func fd] = .ok []) := by
  refine ⟨?_, ?_, ?_, ?_, ?_⟩
  · intro reg name tps ty d hlook
    simp [generateTypeSpecs, hlook, Except.map]
  · intro reg fd d hrecv hlook
    simp [generateFuncDecls, hrecv, generateFuncDeclsCore, hlook, Except.map,
      Except.bind, bind, pure, Except.pure]
  · intro reg fd n ts grd hrecv htps hlookRecv hlookKey
    simp [generateFuncDecls, hrecv, generateFuncDeclsCore, hlookRecv, hlookKey,
      htps, Except.map, Except.bind, bind, pure, Except.pure]
  · intro reg name tps ty d hlook husages
    simp [generateConcreteTypes, generateConcreteTypesGen, gatherTypeSpecs,
      generateTypeSpecs, hlook, husages, Except.bind, bind, pure, Except.pure]
  · intro reg fd d hrecv htps hlook husages
    simp [generateConcreteTypes, generateFuncDecls, hrecv,
      generateFuncDeclsCore, hlook, husages, htps, Except.bind, bind, pure,
      Except.pure]

/-- The registry and declaration for the C2 witness's plain generic
function `func F[T](t T)` with one recorded usage `F[int]`. -/
def exFreg : Registry :=
  [("F", ⟨"F", .sig none [("t", .tparam "T")] [] false ["T"] [], ["T"],
    [("int", ⟨[("T", .basic "int")], .basic "u"⟩)]⟩)]

/-- The C2 witness's function declaration `func F[T](t T)`. -/
def exFfd : FuncD := ⟨none, "F", some ["T"], [.ident "T"], [], []⟩

/-- The registry for the C2 witness's unused generic function
`func g[T]()`. -/
def exF0reg : Registry :=
  [("g", ⟨"g", .sig none [] [] false ["T"] [], ["T"], []⟩)]

/-- The C2 witness's unused generic function declaration `func g[T]()`. -/
def exF0fd : FuncD := ⟨none, "g", some ["T"], [], [], []⟩

/-- The C2 witness's parameterless method `func (A[T]) f0() T` on the
generic receiver `A` of `exC9reg`. -/
def exC9meth : FuncD :=
  ⟨some (.typeArg (.ident "A") [.ident "T"]), "f0", none, [], [.ident "T"],
   [.ident "T"]⟩

/-- Witness for claim C2 at concrete inputs: one emitted spec for the one
usage of `A`, one clone for the one usage of `F`, one clone of the method
`f0` for the one usage of its receiver `A`, deletion of the unused generic
type `Box` and of the unused generic function `g`. -/
theorem claimC2_witness :
    (generateTypeSpecs exC9reg "A" (some ["T"]) (.ident "T")).map List.length =
      .ok 1 ∧
    (generateFuncDecls exFreg exFfd).map (fun r => r.1.length) = .ok 1 ∧
    (generateFuncDecls exC9reg exC9meth).map (fun r => r.1.length) = .ok 1 ∧
    generateConcreteTypes exBoxReg
      [.gen [.typeSpec "Box" (some ["T"]) (.structT [("val", .ident "T")])]] =
      .ok [] ∧
    generateConcreteTypes exF0reg [.func exF0fd] = .ok [] :=
  ⟨claimC2.1 exC9reg "A" (some ["T"]) (.ident "T") _ rfl,
   claimC2.2.1 exFreg exFfd _ rfl rfl,
   claimC2.2.2.1 exC9reg exC9meth "A" [.ident "T"] _ rfl rfl rfl rfl,
   claimC2.2.2.2.1 exBoxReg "Box" (some ["T"]) (.structT [("val", .ident "T")])
     _ rfl rfl,
   claimC2.2.2.2.2 exF0reg exF0fd _ rfl rfl rfl rfl⟩

/-- Claim C1 (evaluation at the failing input): transforming `exC1file` —
whose `main` calls `B[int]{42}.f0[string]()` — succeeds, yet the returned
tree still contains a `TypeArgExpr`: the promoted `IndexExpr` over the
selector is replaced by a clone whose operand keeps the `TypeArgExpr`
`B[int]`, because `replaceGenericIdents` returns `false` there and
`astutil.Apply` never rewrites inside the replacement. -/
theorem claimC1_eval :
    (transformFile exC1reg exC1info exC1file).map fileHasTypeArg = .ok true := rfl

/-- Claim C6 (evaluation at the failing input): in a package with no
generics at all, the method `func (s S) m()` on the non-generic type `S` is
deleted by the transformer — `generateFuncDecls` sets `recvIsGeneric` for
any identifier receiver (the `else` is attached to the inner condition), so
the empty clone list triggers `c.Delete()` — while the claim (and the spec)
say every non-generic declaration is copied unchanged. -/
theorem claimC6_eval :
    transformFile [] emptyInfo exC6file =
      .ok [.gen [.typeSpec "S" none (.ident "string")]] := rfl

/-- Claim C9 (evaluation at the failing input): transforming `exC9src`
yields `exC9out` (the concrete type `A__bool` plus the method `f0` on it);
feeding `exC9out` back through the transformer — with the empty registry
its re-check produces, since the output has no generic declarations —
deletes the method again, so the second transformation is not a no-op. -/
theorem claimC9_eval :
    transformFile exC9reg emptyInfo exC9src = .ok exC9out ∧
    transformFile [] emptyInfo exC9out =
      .ok [.gen [.typeSpec "A__bool" none (.ident "bool")]] ∧
    [Decl.gen [.typeSpec "A__bool" none (.ident "bool")]] ≠ exC9out :=
  ⟨rfl, rfl, fun h => by simpa [exC9out] using congrArg List.length h⟩
end Fo
